import Mathlib

/-
Verification development for the dcache repository (two-tier read-through
cache over a remote key-value store plus an optional process-local
in-memory cache).  The Go source in cache.go is translated here as a
shallow embedding: the client's mutable state becomes an explicit
`ClientState` record, each Go function becomes a Lean function from state
to state, external effects (remote store commands, the origin read, the
msgpack codec's failure behaviour) are driven by explicit outcome
parameters, and wall-clock time is passed as an integer count of
milliseconds since the epoch.  All definitions follow cache.go; deviations
forced by the sequential embedding are noted in the doc comments.
-/

namespace Dcache

/-- Payload bytes are modelled as lists of natural numbers (one per byte). -/
abbrev Bytes := List Nat

/-- Constant from cache.go: suffix of the distributed-lock key. -/
def lockSuffix : String := "_LOCK"

/-- Constant from cache.go: separator of the pub/sub invalidation payload. -/
def delimiter : String := "~|~"

/-- Constant from cache.go: threshold at which enqueueing signals the channel. -/
def maxInvalidate : Nat := 100

/-- Constant from cache.go: capacity of the invalidate signalling channel. -/
def invalidateChSize : Nat := 100

/-- Metric label for local (memory) cache hits. -/
def hitLabelMemory : String := "mem"

/-- Metric label for remote store hits. -/
def hitLabelRedis : String := "redis"

/-- Metric label for origin (database) hits. -/
def hitLabelDB : String := "db"

/-- storeKey from cache.go: the remote-store key derived from the user key,
format string ":{%s}". -/
def storeKey (key : String) : String := ":\x7b" ++ key ++ "\x7d"

/-- lockKey from cache.go: the distributed-lock key, ":" + storeKey + "_LOCK". -/
def lockKey (key : String) : String := ":" ++ storeKey key ++ lockSuffix

/-- Error values surfaced by the cache (ErrTimeout, ErrInternal, ErrNil from
cache.go) plus a constructor for errors produced by external collaborators
(codec, remote store, origin). -/
inductive Err where
  | errTimeout
  | errInternal
  | errNil
  | external (msg : String)
  deriving DecidableEq, Repr

/-- A value of the self-describing binary codec: this struct's fields are
either byte strings or integers. -/
inductive MsgVal where
  | bytes (b : Bytes)
  | int (i : Int)
  deriving DecidableEq, Repr

/-- The encoded envelope: the field map produced by the self-describing
codec (msgpack), a list of tag/value pairs.  The codec itself is an
external collaborator; the spec requires only a self-describing encoding,
which the field map is. -/
abbrev EncEnv := List (String × MsgVal)

/-- ValueBytesExpiredAt from cache.go: payload bytes plus the absolute
expiration timestamp in milliseconds since the epoch. -/
structure ValueBytesExpiredAt where
  ValueBytes : Bytes
  ExpiredAt : Int
  deriving DecidableEq, Repr

/-- What the remote store holds at a key: a well-formed encoded envelope,
or bytes that fail envelope decoding (modelled opaquely). -/
inductive RemoteEntry where
  | enc (e : EncEnv)
  | garbage
  deriving DecidableEq, Repr

/-- Write commands issued to the remote store or to the local in-memory
cache, recorded in an execution log. -/
inductive WriteCmd where
  | remoteSet (k : String)
  | remoteSetNX (k : String)
  | remoteDel (k : String)
  | memSet (k : String)
  | memDel (k : String)
  deriving DecidableEq, Repr

/-- First-found association-list lookup (models a map read). -/
def lookupAssoc {α : Type} : List (String × α) → String → Option α
  | [], _ => none
  | (k, v) :: rest, q => if k = q then some v else lookupAssoc rest q

/-- Association-list update (models a map write: replace or append). -/
def setAssoc {α : Type} : List (String × α) → String → α → List (String × α)
  | [], q, v => [(q, v)]
  | (k, w) :: rest, q, v =>
      if k = q then (q, v) :: rest else (k, w) :: setAssoc rest q v

/-- Association-list removal (models a map delete). -/
def removeAssoc {α : Type} : List (String × α) → String → List (String × α)
  | [], _ => []
  | (k, w) :: rest, q =>
      if k = q then removeAssoc rest q else (k, w) :: removeAssoc rest q

/-- Set-insertion into the pending-key set, modelled as a duplicate-free
list: inserting a present element leaves the set unchanged (Go map
semantics of invalidateKeys[k] = struct{}{}). -/
def insertSet (s : List String) (x : String) : List String :=
  if x ∈ s then s else s ++ [x]

/-- The observable state of one cache Client (cache.go struct Client),
together with the state of the external stores it manipulates and an
execution log of the write commands it has issued.  `hasInMem` models
whether inMemCache is non-nil; `chLen` is the number of queued signals in
the invalidate channel and `chBlocked` records that a plain channel send
was executed against a full channel (a blocking send in Go). -/
structure ClientState where
  hasInMem : Bool
  remote : List (String × RemoteEntry)
  mem : List (String × (Bytes × Int))
  invalidateKeys : List String
  chLen : Nat
  chBlocked : Bool
  hitMem : Nat
  hitRedis : Nat
  hitDB : Nat
  latencyObs : List (String × Int)
  errInvalidate : Nat
  originCalls : Nat
  log : List WriteCmd
  deriving DecidableEq, Repr

/-- msgpack.Marshal of a ValueBytesExpiredAt, modelled at the level of the
codec's field map.  Both fields carry the tag `omitempty`, so an empty
payload omits the "v" field and a zero timestamp omits the "e" field. -/
def msgpackMarshalVE (ve : ValueBytesExpiredAt) : EncEnv :=
  (if ve.ValueBytes = [] then [] else [("v", MsgVal.bytes ve.ValueBytes)]) ++
    (if ve.ExpiredAt = 0 then [] else [("e", MsgVal.int ve.ExpiredAt)])

/-- msgpack.Unmarshal into a ValueBytesExpiredAt: absent or ill-typed
fields decode to the zero value of the field. -/
def msgpackUnmarshalVE (e : EncEnv) : ValueBytesExpiredAt :=
  { ValueBytes :=
      match lookupAssoc e "v" with
      | some (MsgVal.bytes b) => b
      | _ => []
    ExpiredAt :=
      match lookupAssoc e "e" with
      | some (MsgVal.int i) => i
      | _ => 0 }

/-- freecache Get on the local cache: returns the stored bytes when the
key is present (the stored per-entry ttl is not returned). -/
def memGet (st : ClientState) (k : String) : Option Bytes :=
  (lookupAssoc st.mem k).map Prod.fst

/-- freecache Set on the local cache, recording the issued write command. -/
def memSet (st : ClientState) (k : String) (v : Bytes) (ttl : Int) : ClientState :=
  { st with mem := setAssoc st.mem k (v, ttl), log := st.log ++ [WriteCmd.memSet k] }

/-- freecache Del on the local cache, recording the issued write command. -/
def memDel (st : ClientState) (k : String) : ClientState :=
  { st with mem := removeAssoc st.mem k, log := st.log ++ [WriteCmd.memDel k] }

/-- broadcastKeyInvalidate from cache.go: under the mutex, insert
storeKey(key) into invalidateKeys and read the new size; after unlocking,
if the size equals maxInvalidate perform a plain (blocking) send on
invalidateCh.  The send is `c.invalidateCh <- struct{}{}` with no
select/default: when the buffered channel (capacity invalidateChSize) is
full the sender blocks, recorded here by setting `chBlocked`. -/
def broadcastKeyInvalidate (st : ClientState) (key : String) : ClientState :=
  if (insertSet st.invalidateKeys (storeKey key)).length = maxInvalidate then
    if st.chLen < invalidateChSize then
      { st with invalidateKeys := insertSet st.invalidateKeys (storeKey key),
                chLen := st.chLen + 1 }
    else
      { st with invalidateKeys := insertSet st.invalidateKeys (storeKey key),
                chBlocked := true }
  else
    { st with invalidateKeys := insertSet st.invalidateKeys (storeKey key) }

/-- updateMemoryCache from cache.go.  The local ttl is
time.UnixMilli(ve.ExpiredAt).Unix() - getNow().Unix(), i.e. the floor
division of both timestamps by 1000; when the client has a local cache and
that ttl is positive, a differing present local value triggers
broadcastKeyInvalidate(storeKey(key)) and the payload is then stored under
storeKey(key) with the integer-second ttl. -/
def updateMemoryCache (st : ClientState) (key : String) (ve : ValueBytesExpiredAt)
    (nowMs : Int) : ClientState :=
  if st.hasInMem then
    if 0 < ve.ExpiredAt.fdiv 1000 - nowMs.fdiv 1000 then
      memSet
        (match memGet st (storeKey key) with
         | some memValue =>
             if ve.ValueBytes = memValue then st
             else broadcastKeyInvalidate st (storeKey key)
         | none => st)
        (storeKey key) ve.ValueBytes (ve.ExpiredAt.fdiv 1000 - nowMs.fdiv 1000)
    else st
  else st

/-- The in-memory half of deleteKey from cache.go: when a local cache is
attached, a present entry triggers broadcastKeyInvalidate(key) (note: the
user key is passed), and the entry is then deleted locally. -/
def deleteKeyMem (st : ClientState) (key : String) : ClientState :=
  if st.hasInMem then
    memDel
      (match memGet st (storeKey key) with
       | some _ => broadcastKeyInvalidate st key
       | none => st)
      (storeKey key)
  else st

/-- deleteKey from cache.go: issue DEL storeKey(key) on the remote store,
then run the in-memory half. -/
def deleteKey (st : ClientState) (key : String) : ClientState :=
  deleteKeyMem
    { st with remote := removeAssoc st.remote (storeKey key),
              log := st.log ++ [WriteCmd.remoteDel (storeKey key)] }
    key

/-- A Go value handed to marshal (the `any` argument).  A Go string is
represented by its byte content; `goOther` is a codec-serializable value
carrying the bytes the external codec would produce for it, or `none`
when the codec fails on it. -/
inductive GoVal where
  | goNil
  | goBytes (b : Bytes)
  | goString (b : Bytes)
  | goOther (enc : Option Bytes)
  deriving DecidableEq, Repr

/-- A Go decode target (the `any` pointer handed to unmarshal):
a nil interface, a *[]byte, a *string, or any other pointer, the last
carrying whether the external codec can decode the bytes into it. -/
inductive GoTarget where
  | tNil
  | tBytesPtr
  | tStringPtr
  | tOther (decodable : Bool)
  deriving DecidableEq, Repr

/-- What unmarshal wrote through the caller's target pointer. -/
inductive UnmarshalResult where
  | nothingWritten
  | wroteBytes (b : Bytes)
  | wroteString (b : Bytes)
  | codecDecoded (b : Bytes)
  deriving DecidableEq, Repr

/-- marshal from cache.go: nil encodes to nil bytes, a byte slice is
stored verbatim, a string is stored as its raw bytes, anything else goes
through msgpack.Marshal (which may fail). -/
def marshal : GoVal → Except Err Bytes
  | GoVal.goNil => Except.ok []
  | GoVal.goBytes b => Except.ok b
  | GoVal.goString b => Except.ok b
  | GoVal.goOther (some enc) => Except.ok enc
  | GoVal.goOther none => Except.error (Err.external "msgpack marshal")

/-- The copy loop of unmarshal's *[]byte case (make + copy): builds a
fresh list with the same elements. -/
def cloneBytes : Bytes → Bytes
  | [] => []
  | x :: xs => x :: cloneBytes xs

/-- unmarshal from cache.go: empty bytes return a nil error without
touching the target; otherwise a nil target yields ErrNil, a *[]byte
target receives a fresh copy, a *string target receives the bytes as a
string, and any other target is decoded via msgpack.Unmarshal. -/
def unmarshal (b : Bytes) (t : GoTarget) : Except Err UnmarshalResult :=
  if b = [] then Except.ok UnmarshalResult.nothingWritten
  else
    match t with
    | GoTarget.tNil => Except.error Err.errNil
    | GoTarget.tBytesPtr => Except.ok (UnmarshalResult.wroteBytes (cloneBytes b))
    | GoTarget.tStringPtr => Except.ok (UnmarshalResult.wroteString b)
    | GoTarget.tOther true => Except.ok (UnmarshalResult.codecDecoded b)
    | GoTarget.tOther false => Except.error (Err.external "msgpack unmarshal")

/-- Outcomes of the external calls made by setKey: whether
msgpack.Marshal of the envelope fails, and whether the remote SET fails. -/
structure ExtOutcome where
  marshalErr : Option Err
  setErr : Option Err
  deriving DecidableEq, Repr

/-- setKey from cache.go: build the envelope with ExpiredAt =
getNow().Add(ttl).UnixMilli() (modelled as now1 + ttlMs), msgpack-encode
it (propagating a codec error), SET storeKey(key) on the remote store
with the same ttl (propagating a store error; the command is logged as
issued), and only on success call updateMemoryCache.  `now1` is the clock
read inside setKey and `now2` the clock read inside updateMemoryCache. -/
def setKey (st : ClientState) (key : String) (valueBytes : Bytes) (ttlMs : Int)
    (now1 now2 : Int) (oc : ExtOutcome) : ClientState × Option Err :=
  match oc.marshalErr with
  | some e => (st, some e)
  | none =>
    match oc.setErr with
    | some e =>
        ({ st with log := st.log ++ [WriteCmd.remoteSet (storeKey key)] }, some e)
    | none =>
        (updateMemoryCache
          { st with
              remote := setAssoc st.remote (storeKey key)
                (RemoteEntry.enc (msgpackMarshalVE ⟨valueBytes, now1 + ttlMs⟩)),
              log := st.log ++ [WriteCmd.remoteSet (storeKey key)] }
          key ⟨valueBytes, now1 + ttlMs⟩ now2, none)

/-- Set from cache.go: marshal the value and delegate to setKey. -/
def Set (st : ClientState) (key : String) (val : GoVal) (ttlMs : Int)
    (now1 now2 : Int) (oc : ExtOutcome) : ClientState × Option Err :=
  match marshal val with
  | Except.error e => (st, some e)
  | Except.ok bs => setKey st key bs ttlMs now1 now2 oc

/-- Invalidate from cache.go: deleteKey, always returning a nil error. -/
def Invalidate (st : ClientState) (key : String) : ClientState × Option Err :=
  (deleteKey st key, none)

/-- One outcome of the caller-supplied origin read f() together with the
external-effect outcomes of the surrounding readValue call: the returned
value, its ttl (milliseconds), the error, the db latency that the invoked
deferred closure observes, and the setKey outcomes. -/
structure ReadOutcome where
  val : GoVal
  ttlMs : Int
  err : Option Err
  elapsedMs : Int
  oc : ExtOutcome
  deriving DecidableEq, Repr

/-- The closure returned by recordLatency: when invoked it appends one
observation (label, elapsed milliseconds) to the latency histogram. -/
def recordLatencyClosure (label : String) (startedAt nowMs : Int) : String × Int :=
  (label, nowMs - startedAt)

/-- The tail of readValue after the singleflight body ran f(): the origin
error is propagated, the value is marshalled (propagating a codec error),
and unless noStore the bytes are written through setKey whose error is
only logged; the marshalled bytes are returned. -/
def readValueAfterDb (st : ClientState) (key : String) (ro : ReadOutcome)
    (noStore : Bool) (nowMs : Int) : ClientState × Except Err Bytes :=
  match ro.err with
  | some e => (st, Except.error e)
  | none =>
    match marshal ro.val with
    | Except.error e => (st, Except.error e)
    | Except.ok valueBytes =>
        if noStore then (st, Except.ok valueBytes)
        else ((setKey st key valueBytes ro.ttlMs nowMs nowMs ro.oc).1,
              Except.ok valueBytes)

/-- readValue from cache.go, in the sequential model where the per-pod
singleflight group runs the body directly: the origin f() is invoked and
the deferred db hit-counter increment and db latency observation run at
body exit (also on an origin error), then readValueAfterDb. -/
def readValue (st : ClientState) (key : String) (ro : ReadOutcome)
    (noStore : Bool) (nowMs : Int) : ClientState × Except Err Bytes :=
  readValueAfterDb
    { st with originCalls := st.originCalls + 1,
              hitDB := st.hitDB + 1,
              latencyObs := st.latencyObs ++ [(hitLabelDB, ro.elapsedMs)] }
    key ro noStore nowMs

/-- One iteration outcome of the lock branch of GetWithTtl's retry loop:
the SETNX either acquires the lock, or fails with the caller's context
already done, or fails and the lockSleep elapses so the loop retries. -/
inductive LoopStep where
  | setNXAcquired
  | setNXBusyCtxDone
  | setNXBusySleep
  deriving DecidableEq, Repr

/-- The GET-and-decode step at the top of each iteration of GetWithTtl's
retry loop (cache.go lines 447-460): on a decodable envelope it
increments the redis hit counter and — mirroring source line 455, which
builds the closure returned by recordLatency but never invokes it —
appends no latency observation, then backfills the local cache unless
noStore and yields the payload bytes; otherwise (a remote miss or an
envelope-decode failure, both treated as a miss) it yields none. -/
def tryRemoteHit (key : String) (noStore : Bool) (nowMs : Int) (st : ClientState) :
    Option (ClientState × Except Err Bytes) :=
  match lookupAssoc st.remote (storeKey key) with
  | some (RemoteEntry.enc e) =>
      some
        (if noStore then { st with hitRedis := st.hitRedis + 1 }
         else updateMemoryCache { st with hitRedis := st.hitRedis + 1 }
                key (msgpackUnmarshalVE e) nowMs,
         Except.ok (msgpackUnmarshalVE e).ValueBytes)
  | _ => none

/-- The body of the distributed single flight in GetWithTtl (cache.go
lines 443-479).  Each iteration first runs tryRemoteHit; on a miss it
issues SETNX lockKey(key): if acquired it runs readValue; if the caller's
context is done it returns ErrTimeout; else it sleeps lockSleep and
retries.  The oracle list `steps` supplies the outcome of each SETNX
attempt; an exhausted oracle yields `none` (the modelled trace does not
resolve the call). -/
def getWithTtlLoop (key : String) (ro : ReadOutcome) (noStore : Bool) (nowMs : Int) :
    List LoopStep → ClientState → ClientState × Option (Except Err Bytes)
  | [], st =>
      match tryRemoteHit key noStore nowMs st with
      | some r => (r.1, some r.2)
      | none => (st, none)
  | s :: rest, st =>
      match tryRemoteHit key noStore nowMs st with
      | some r => (r.1, some r.2)
      | none =>
        match s with
        | LoopStep.setNXAcquired =>
            match readValue
                { st with log := st.log ++ [WriteCmd.remoteSetNX (lockKey key)] }
                key ro noStore nowMs with
            | (st2, r) => (st2, some r)
        | LoopStep.setNXBusyCtxDone =>
            ({ st with log := st.log ++ [WriteCmd.remoteSetNX (lockKey key)] },
             some (Except.error Err.errTimeout))
        | LoopStep.setNXBusySleep =>
            getWithTtlLoop key ro noStore nowMs rest
              { st with log := st.log ++ [WriteCmd.remoteSetNX (lockKey key)] }

/-- GetWithTtl from cache.go: noCache short-circuits to readValue and
decodes; otherwise an attached local cache is consulted first (a hit
increments the mem counter and decodes); on a local miss the distributed
single-flight loop runs and its payload bytes are decoded into the
target. -/
def GetWithTtl (st : ClientState) (key : String) (target : GoTarget)
    (ro : ReadOutcome) (noCache noStore : Bool) (nowMs : Int)
    (steps : List LoopStep) : ClientState × Option (Except Err UnmarshalResult) :=
  if noCache then
    match readValue st key ro noStore nowMs with
    | (st1, Except.error e) => (st1, some (Except.error e))
    | (st1, Except.ok bs) => (st1, some (unmarshal bs target))
  else
    match (if st.hasInMem then memGet st (storeKey key) else none) with
    | some tb => ({ st with hitMem := st.hitMem + 1 }, some (unmarshal tb target))
    | none =>
      match getWithTtlLoop key ro noStore nowMs steps st with
      | (st1, none) => (st1, none)
      | (st1, some (Except.error e)) => (st1, some (Except.error e))
      | (st1, some (Except.ok bs)) => (st1, some (unmarshal bs target))

/-- The splitting loop of strings.Split(payload, delimiter) for the fixed
three-character delimiter "~|~": scans left to right, cutting at each
leftmost occurrence.  `acc` holds the current field's characters in
reverse. -/
def splitChars : List Char → List Char → List String
  | [], acc => [String.mk acc.reverse]
  | '~' :: '|' :: '~' :: rest, acc => String.mk acc.reverse :: splitChars rest []
  | c :: rest, acc => splitChars rest (c :: acc)

/-- strings.Split(payload, delimiter) from the listener in cache.go. -/
def splitOnDelim (s : String) : List String :=
  splitChars s.data []

/-- The message published by aggregateSend in cache.go:
id + delimiter + strings.Join(keys, delimiter). -/
def aggregateMsg (id : String) (keys : List String) : String :=
  id ++ delimiter ++ String.intercalate delimiter keys

/-- The per-message handler of listenKeyInvalidate in cache.go: split the
payload on the delimiter; fewer than two fields increment the invalidate
error counter; a first field equal to the own id is loopback and is
dropped; otherwise every remaining field is deleted from the local
cache verbatim. -/
def listenKeyInvalidate (st : ClientState) (selfId : String) (payload : String) :
    ClientState :=
  if (splitOnDelim payload).length < 2 then
    { st with errInvalidate := st.errInvalidate + 1 }
  else
    if (splitOnDelim payload).head? = some selfId then st
    else (splitOnDelim payload).drop 1 |>.foldl (fun s k => memDel s k) st

/-- The all-empty client state with no local cache attached. -/
def st0 : ClientState := ⟨false, [], [], [], 0, false, 0, 0, 0, [], 0, 0, []⟩

/-- The all-empty client state with a local cache attached. -/
def stMem : ClientState := { st0 with hasInMem := true }

/-- Ninety-nine pairwise distinct pending keys (the decimal numerals). -/
def pending99 : List String := (List.range 99).map (fun n => toString n)

/-- A state whose pending set holds 99 keys and whose invalidate channel
is full. -/
def stFull : ClientState :=
  { stMem with invalidateKeys := pending99, chLen := invalidateChSize }

/-- An origin read returning Go nil with a 1 second ttl and no failures. -/
def roNil : ReadOutcome := ⟨GoVal.goNil, 1000, none, 0, ⟨none, none⟩⟩

theorem lookupAssoc_setAssoc {α : Type} (m : List (String × α)) (q : String) (v : α) :
    lookupAssoc (setAssoc m q v) q = some v := by
  induction m with
  | nil => simp [setAssoc, lookupAssoc]
  | cons kv rest ih =>
      obtain ⟨k, w⟩ := kv
      by_cases hk : k = q
      · simp [setAssoc, hk, lookupAssoc]
      · simp [setAssoc, hk, lookupAssoc, ih]

theorem cloneBytes_eq (b : Bytes) : cloneBytes b = b := by
  induction b with
  | nil => rfl
  | cons x xs ih => simp [cloneBytes, ih]

theorem broadcast_invalidateKeys (st : ClientState) (key : String) :
    (broadcastKeyInvalidate st key).invalidateKeys
      = insertSet st.invalidateKeys (storeKey key) := by
  unfold broadcastKeyInvalidate; (repeat' split) <;> rfl

theorem broadcast_mem (st : ClientState) (key : String) :
    (broadcastKeyInvalidate st key).mem = st.mem := by
  unfold broadcastKeyInvalidate; (repeat' split) <;> rfl

theorem broadcast_log (st : ClientState) (key : String) :
    (broadcastKeyInvalidate st key).log = st.log := by
  unfold broadcastKeyInvalidate; (repeat' split) <;> rfl

theorem broadcast_latencyObs (st : ClientState) (key : String) :
    (broadcastKeyInvalidate st key).latencyObs = st.latencyObs := by
  unfold broadcastKeyInvalidate; (repeat' split) <;> rfl

theorem broadcast_originCalls (st : ClientState) (key : String) :
    (broadcastKeyInvalidate st key).originCalls = st.originCalls := by
  unfold broadcastKeyInvalidate; (repeat' split) <;> rfl

theorem broadcast_hitRedis (st : ClientState) (key : String) :
    (broadcastKeyInvalidate st key).hitRedis = st.hitRedis := by
  unfold broadcastKeyInvalidate; (repeat' split) <;> rfl

theorem broadcast_remote (st : ClientState) (key : String) :
    (broadcastKeyInvalidate st key).remote = st.remote := by
  unfold broadcastKeyInvalidate; (repeat' split) <;> rfl

theorem broadcast_hasInMem (st : ClientState) (key : String) :
    (broadcastKeyInvalidate st key).hasInMem = st.hasInMem := by
  unfold broadcastKeyInvalidate; (repeat' split) <;> rfl

theorem umc_originCalls (st : ClientState) (key : String) (ve : ValueBytesExpiredAt)
    (nowMs : Int) : (updateMemoryCache st key ve nowMs).originCalls = st.originCalls := by
  unfold updateMemoryCache memSet
  (repeat' split) <;> simp [broadcast_originCalls]

theorem umc_latencyObs (st : ClientState) (key : String) (ve : ValueBytesExpiredAt)
    (nowMs : Int) : (updateMemoryCache st key ve nowMs).latencyObs = st.latencyObs := by
  unfold updateMemoryCache memSet
  (repeat' split) <;> simp [broadcast_latencyObs]

theorem umc_hitRedis (st : ClientState) (key : String) (ve : ValueBytesExpiredAt)
    (nowMs : Int) : (updateMemoryCache st key ve nowMs).hitRedis = st.hitRedis := by
  unfold updateMemoryCache memSet
  (repeat' split) <;> simp [broadcast_hitRedis]

theorem umc_nonpos (st : ClientState) (key : String) (ve : ValueBytesExpiredAt)
    (nowMs : Int) (h : ve.ExpiredAt.fdiv 1000 - nowMs.fdiv 1000 ≤ 0) :
    updateMemoryCache st key ve nowMs = st := by
  unfold updateMemoryCache
  split
  · rw [if_neg (by omega)]
  · rfl

theorem setKey_originCalls (st : ClientState) (key : String) (vb : Bytes)
    (ttlMs now1 now2 : Int) (oc : ExtOutcome) :
    (setKey st key vb ttlMs now1 now2 oc).1.originCalls = st.originCalls := by
  unfold setKey
  (repeat' split) <;> simp [umc_originCalls]

theorem setKey_log_entries (st : ClientState) (key : String) (vb : Bytes)
    (ttlMs now1 now2 : Int) (oc : ExtOutcome) (w : WriteCmd)
    (hw : w ∈ (setKey st key vb ttlMs now1 now2 oc).1.log) :
    w ∈ st.log ∨ w = WriteCmd.remoteSet (storeKey key)
      ∨ w = WriteCmd.memSet (storeKey key) := by
  unfold setKey at hw
  rcases h1 : oc.marshalErr with _ | e
  · rcases h2 : oc.setErr with _ | e
    · rw [h1, h2] at hw
      simp only at hw
      -- success path: remote write logged, then updateMemoryCache
      revert hw
      unfold updateMemoryCache memSet
      (repeat' split) <;> intro hw <;>
        simp [broadcast_log, List.mem_append] at hw <;> tauto
    · rw [h1, h2] at hw
      simp [List.mem_append] at hw
      tauto
  · rw [h1] at hw
    simp at hw
    tauto

theorem readValue_originCalls (st : ClientState) (key : String) (ro : ReadOutcome)
    (noStore : Bool) (nowMs : Int) :
    (readValue st key ro noStore nowMs).1.originCalls = st.originCalls + 1 := by
  unfold readValue readValueAfterDb
  (repeat' split) <;> simp [setKey_originCalls]

theorem readValue_log_noStore (st : ClientState) (key : String) (ro : ReadOutcome)
    (nowMs : Int) :
    (readValue st key ro true nowMs).1.log = st.log := by
  unfold readValue readValueAfterDb
  (repeat' split) <;> first | rfl | simp_all

theorem tryRemoteHit_log_noStore (key : String) (nowMs : Int) (st : ClientState)
    (r : ClientState × Except Err Bytes)
    (h : tryRemoteHit key true nowMs st = some r) : r.1.log = st.log := by
  unfold tryRemoteHit at h
  rcases hl : lookupAssoc st.remote (storeKey key) with _ | re
  · rw [hl] at h; simp at h
  · cases re with
    | enc e =>
        rw [hl] at h
        simp only [if_pos rfl] at h
        cases h
        rfl
    | garbage => rw [hl] at h; simp at h

theorem loop_nil (key : String) (ro : ReadOutcome) (noStore : Bool) (nowMs : Int)
    (st : ClientState) :
    getWithTtlLoop key ro noStore nowMs [] st =
      (match tryRemoteHit key noStore nowMs st with
       | some r => (r.1, some r.2)
       | none => (st, none)) := rfl

theorem loop_cons (key : String) (ro : ReadOutcome) (noStore : Bool) (nowMs : Int)
    (s : LoopStep) (rest : List LoopStep) (st : ClientState) :
    getWithTtlLoop key ro noStore nowMs (s :: rest) st =
      (match tryRemoteHit key noStore nowMs st with
       | some r => (r.1, some r.2)
       | none =>
         match s with
         | LoopStep.setNXAcquired =>
             match readValue
                 { st with log := st.log ++ [WriteCmd.remoteSetNX (lockKey key)] }
                 key ro noStore nowMs with
             | (st2, r) => (st2, some r)
         | LoopStep.setNXBusyCtxDone =>
             ({ st with log := st.log ++ [WriteCmd.remoteSetNX (lockKey key)] },
              some (Except.error Err.errTimeout))
         | LoopStep.setNXBusySleep =>
             getWithTtlLoop key ro noStore nowMs rest
               { st with log := st.log ++ [WriteCmd.remoteSetNX (lockKey key)] }) := rfl

theorem loop_log_noStore (key : String) (ro : ReadOutcome) (nowMs : Int) :
    ∀ (steps : List LoopStep) (st : ClientState) (w : WriteCmd),
      w ∈ (getWithTtlLoop key ro true nowMs steps st).1.log →
      w ∈ st.log ∨ ∃ k2, w = WriteCmd.remoteSetNX k2 := by
  intro steps
  induction steps with
  | nil =>
      intro st w hw
      rw [loop_nil] at hw
      rcases hh : tryRemoteHit key true nowMs st with _ | r
      · rw [hh] at hw; left; exact hw
      · rw [hh] at hw
        simp only at hw
        rw [tryRemoteHit_log_noStore key nowMs st r hh] at hw
        left; exact hw
  | cons s rest ih =>
      intro st w hw
      rw [loop_cons] at hw
      rcases hh : tryRemoteHit key true nowMs st with _ | r
      · rw [hh] at hw
        simp only at hw
        cases s with
        | setNXAcquired =>
            rcases hr : readValue
                { st with log := st.log ++ [WriteCmd.remoteSetNX (lockKey key)] }
                key ro true nowMs with ⟨st2, rr⟩
            rw [hr] at hw
            simp only at hw
            have hlog := readValue_log_noStore
              { st with log := st.log ++ [WriteCmd.remoteSetNX (lockKey key)] } key ro nowMs
            rw [hr] at hlog
            rw [hlog] at hw
            simp [List.mem_append] at hw
            rcases hw with hw | hw
            · left; exact hw
            · right; exact ⟨lockKey key, hw⟩
        | setNXBusyCtxDone =>
            simp [List.mem_append] at hw
            rcases hw with hw | hw
            · left; exact hw
            · right; exact ⟨lockKey key, hw⟩
        | setNXBusySleep =>
            rcases ih _ w hw with hw2 | hw2
            · simp [List.mem_append] at hw2
              rcases hw2 with hw2 | hw2
              · left; exact hw2
              · right; exact ⟨lockKey key, hw2⟩
            · right; exact hw2
      · rw [hh] at hw
        simp only at hw
        rw [tryRemoteHit_log_noStore key nowMs st r hh] at hw
        left; exact hw

/-- C6: for every byte sequence b and expiration timestamp t, decoding
the msgpack-encoded ValueBytesExpiredAt envelope returns the original
pair: decode(encode(b, t)) == (b, t), including through the omitempty
collapse of an empty payload or a zero timestamp. -/
theorem C6_envelope_roundtrip (b : Bytes) (t : Int) :
    msgpackUnmarshalVE (msgpackMarshalVE ⟨b, t⟩) = ⟨b, t⟩ := by
  by_cases hb : b = [] <;> by_cases ht : t = 0 <;>
    simp [msgpackMarshalVE, msgpackUnmarshalVE, lookupAssoc, hb, ht]

/-- C7 counterexample: unmarshal of the empty byte sequence into a
*[]byte target returns a nil error without touching the target, not the
NIL error the claim asserts. -/
theorem C7_counterexample :
    unmarshal [] GoTarget.tBytesPtr = Except.ok UnmarshalResult.nothingWritten ∧
    unmarshal [] GoTarget.tBytesPtr ≠ Except.error Err.errNil := by
  constructor
  · rfl
  · intro h
    rw [show unmarshal [] GoTarget.tBytesPtr
          = Except.ok UnmarshalResult.nothingWritten from rfl] at h
    exact Except.noConfusion h

/-- C7 (amended): unmarshal follows the mirror rule, except that an empty
byte sequence decodes to nothing with a nil (success) error rather than
the NIL error; for non-empty bytes a nil target yields the NIL error, a
*[]byte target receives a fresh copy equal to b, a *string target
receives the bytes as a string, and any other target is decoded via the
codec. -/
theorem C7_unmarshal_mirror (b : Bytes) (hb : b ≠ []) :
    (∀ t, unmarshal [] t = Except.ok UnmarshalResult.nothingWritten) ∧
    unmarshal b GoTarget.tNil = Except.error Err.errNil ∧
    unmarshal b GoTarget.tBytesPtr = Except.ok (UnmarshalResult.wroteBytes b) ∧
    unmarshal b GoTarget.tStringPtr = Except.ok (UnmarshalResult.wroteString b) ∧
    unmarshal b (GoTarget.tOther true) = Except.ok (UnmarshalResult.codecDecoded b) := by
  refine ⟨fun t => by simp [unmarshal], ?_, ?_, ?_, ?_⟩ <;>
    simp [unmarshal, hb, cloneBytes_eq]

/-- C7 witness: the amended mirror rule evaluated on the byte sequence
with the single byte 3. -/
theorem C7_unmarshal_mirror_witness :
    unmarshal [3] GoTarget.tBytesPtr = Except.ok (UnmarshalResult.wroteBytes [3]) :=
  (C7_unmarshal_mirror [3] (by decide)).2.2.1

/-- C8: when the origin read and marshalling succeed, readValue returns
the marshalled value bytes with a nil error, for every outcome of the
cache write (a setKey failure is logged only and never masks the
value). -/
theorem C8_readValue_success (st : ClientState) (key : String) (ro : ReadOutcome)
    (noStore : Bool) (nowMs : Int) (vb : Bytes)
    (h1 : ro.err = none) (h2 : marshal ro.val = Except.ok vb) :
    (readValue st key ro noStore nowMs).2 = Except.ok vb := by
  unfold readValue readValueAfterDb
  simp only [h1, h2]
  split <;> rfl

/-- An origin read returning the byte slice [7] whose subsequent remote
SET fails. -/
def roWrite : ReadOutcome :=
  ⟨GoVal.goBytes [7], 1000, none, 0, ⟨none, some (Err.external "redis set")⟩⟩

/-- C8 witness: readValue still returns the origin bytes [7] although
the remote SET of the backfill fails. -/
theorem C8_readValue_success_witness :
    (readValue stMem "k" roWrite false 0).2 = Except.ok [7] :=
  C8_readValue_success stMem "k" roWrite false 0 [7] rfl rfl

/-- C9: an invalidation message whose first field equals the instance's
own process id never deletes anything from the local cache; when the
payload has at least two fields processing stops at the
loopback-suppression check, leaving the whole state untouched. -/
theorem C9_loopback_suppression (st : ClientState) (selfId payload : String)
    (h : (splitOnDelim payload).head? = some selfId) :
    (listenKeyInvalidate st selfId payload).mem = st.mem ∧
    (2 ≤ (splitOnDelim payload).length →
       listenKeyInvalidate st selfId payload = st) := by
  unfold listenKeyInvalidate
  by_cases hl : (splitOnDelim payload).length < 2
  · rw [if_pos hl]
    exact ⟨rfl, fun h2 => absurd h2 (by omega)⟩
  · rw [if_neg hl, if_pos h]
    exact ⟨rfl, fun _ => rfl⟩

/-- C9 witness: a message this instance published itself (id "me",
payload built exactly as aggregateSend formats it) leaves the state
unchanged. -/
theorem C9_loopback_suppression_witness :
    listenKeyInvalidate st0 "me" (aggregateMsg "me" [storeKey "k1"]) = st0 :=
  (C9_loopback_suppression st0 "me" (aggregateMsg "me" [storeKey "k1"])
    (by decide)).2 (by decide)

/-- C10: when setKey fails — the envelope encoding errors or the remote
SET errors — setKey returns that error and the local in-memory cache and
the pending invalidation set (and on the encode path even the remote
store) are left unchanged: updateMemoryCache is never reached. -/
theorem C10_setKey_error_path (st : ClientState) (key : String) (vb : Bytes)
    (ttlMs now1 now2 : Int) (oc : ExtOutcome) (e : Err) :
    (oc.marshalErr = some e → setKey st key vb ttlMs now1 now2 oc = (st, some e)) ∧
    (oc.marshalErr = none → oc.setErr = some e →
       (setKey st key vb ttlMs now1 now2 oc).2 = some e ∧
       (setKey st key vb ttlMs now1 now2 oc).1.mem = st.mem ∧
       (setKey st key vb ttlMs now1 now2 oc).1.invalidateKeys = st.invalidateKeys ∧
       (setKey st key vb ttlMs now1 now2 oc).1.remote = st.remote) := by
  constructor
  · intro h; unfold setKey; rw [h]
  · intro h1 h2; unfold setKey; rw [h1, h2]
    exact ⟨rfl, rfl, rfl, rfl⟩

/-- C10 witness: a failing envelope encode returns the error and leaves
the state untouched. -/
theorem C10_setKey_error_path_witness :
    setKey st0 "a" [1] 1000 0 0 ⟨some (Err.external "msgpack marshal"), none⟩
      = (st0, some (Err.external "msgpack marshal")) :=
  (C10_setKey_error_path st0 "a" [1] 1000 0 0
    ⟨some (Err.external "msgpack marshal"), none⟩ (Err.external "msgpack marshal")).1 rfl

theorem deleteKeyMem_pending (st : ClientState) (k : String) (mv : Bytes)
    (h1 : st.hasInMem = true) (h2 : memGet st (storeKey k) = some mv) :
    (deleteKeyMem st k).invalidateKeys = insertSet st.invalidateKeys (storeKey k) := by
  unfold deleteKeyMem
  rw [if_pos h1, h2]
  show (broadcastKeyInvalidate st k).invalidateKeys = _
  exact broadcast_invalidateKeys st k

theorem umc_mem_pos (st : ClientState) (k : String) (ve : ValueBytesExpiredAt)
    (nowMs : Int) (h : st.hasInMem = true)
    (hpos : 0 < ve.ExpiredAt.fdiv 1000 - nowMs.fdiv 1000) :
    (updateMemoryCache st k ve nowMs).mem
      = setAssoc st.mem (storeKey k)
          (ve.ValueBytes, ve.ExpiredAt.fdiv 1000 - nowMs.fdiv 1000) := by
  unfold updateMemoryCache
  rw [if_pos h, if_pos hpos]
  rcases hg : memGet st (storeKey k) with _ | mvv
  · rfl
  · dsimp only
    split
    · rfl
    · show setAssoc (broadcastKeyInvalidate st (storeKey k)).mem _ _ = _
      rw [broadcast_mem]

/-- A state holding one local entry for user key "a" with payload [2]. -/
def stOne : ClientState := { stMem with mem := [(storeKey "a", ([2], 5))] }

/-- C1 counterexample: deleteKey of the locally present user key "a"
does not enqueue "a" itself — the pending set receives storeKey("a")
instead, because broadcastKeyInvalidate applies storeKey to its
argument before inserting. -/
theorem C1_counterexample :
    "a" ∉ (deleteKey stOne "a").invalidateKeys ∧
    storeKey "a" ∈ (deleteKey stOne "a").invalidateKeys := by decide

/-- C1 (amended): broadcastKeyInvalidate applies storeKey to its
argument before inserting into the pending set, so a deleteKey of a
locally present key enqueues storeKey(k) and an update_local that
detects a changed payload enqueues storeKey(storeKey(k)). -/
theorem C1_broadcast_enqueue (st : ClientState) (k : String)
    (ve : ValueBytesExpiredAt) (nowMs : Int) (mv : Bytes)
    (h1 : st.hasInMem = true)
    (h2 : memGet st (storeKey k) = some mv)
    (h3 : ve.ValueBytes ≠ mv)
    (h4 : 0 < ve.ExpiredAt.fdiv 1000 - nowMs.fdiv 1000) :
    (deleteKey st k).invalidateKeys = insertSet st.invalidateKeys (storeKey k) ∧
    (updateMemoryCache st k ve nowMs).invalidateKeys
      = insertSet st.invalidateKeys (storeKey (storeKey k)) := by
  constructor
  · exact deleteKeyMem_pending
      { st with remote := removeAssoc st.remote (storeKey k),
                log := st.log ++ [WriteCmd.remoteDel (storeKey k)] } k mv h1 h2
  · unfold updateMemoryCache
    rw [if_pos h1, if_pos h4, h2]
    dsimp only
    rw [if_neg h3]
    show (broadcastKeyInvalidate st (storeKey k)).invalidateKeys = _
    exact broadcast_invalidateKeys st (storeKey k)

/-- C1 witness: the amended enqueue behaviour evaluated on a state with
one local entry for "a" and an update whose payload differs. -/
theorem C1_broadcast_enqueue_witness :
    (deleteKey stOne "a").invalidateKeys = insertSet stOne.invalidateKeys (storeKey "a") ∧
    (updateMemoryCache stOne "a" ⟨[3], 2000⟩ 0).invalidateKeys
      = insertSet stOne.invalidateKeys (storeKey (storeKey "a")) :=
  C1_broadcast_enqueue stOne "a" ⟨[3], 2000⟩ 0 [2] rfl (by decide) (by decide) (by decide)

/-- C3 counterexample: a Set with a 1 millisecond ttl issued at
now = 999 ms does populate the local cache (with a 1 second ttl),
because floor((999+1)/1000) - floor(999/1000) = 1 > 0; so a ttl argument
strictly below one second does not guarantee the local cache stays
empty. -/
theorem C3_counterexample :
    memGet (Set stMem "a" (GoVal.goBytes [7]) 1 999 999 ⟨none, none⟩).1 (storeKey "a")
      = some [7] ∧ (1 : Int) < 1000 := by decide

/-- C3 (amended): the local cache is populated with the integer-second
ttl floor(expires_at_ms/1000) - floor(now_ms/1000); when that quantity is
non-positive nothing is written; a Set or setKey whose ttl is below one
second leaves the local cache unchanged provided the envelope expiry does
not cross a second boundary past the clock read in updateMemoryCache
(otherwise, as the counterexample shows, it is populated). -/
theorem C3_local_ttl (st : ClientState) (k : String) (ve : ValueBytesExpiredAt)
    (nowMs : Int) (h : st.hasInMem = true) :
    (ve.ExpiredAt.fdiv 1000 - nowMs.fdiv 1000 ≤ 0 →
       updateMemoryCache st k ve nowMs = st) ∧
    (0 < ve.ExpiredAt.fdiv 1000 - nowMs.fdiv 1000 →
       lookupAssoc (updateMemoryCache st k ve nowMs).mem (storeKey k)
         = some (ve.ValueBytes, ve.ExpiredAt.fdiv 1000 - nowMs.fdiv 1000)) ∧
    (∀ (vb : Bytes) (ttlMs now1 now2 : Int) (oc : ExtOutcome),
       ttlMs < 1000 → (now1 + ttlMs).fdiv 1000 ≤ now2.fdiv 1000 →
       (setKey st k vb ttlMs now1 now2 oc).1.mem = st.mem) := by
  refine ⟨fun hle => umc_nonpos st k ve nowMs hle, fun hpos => ?_, ?_⟩
  · rw [umc_mem_pos st k ve nowMs h hpos]
    exact lookupAssoc_setAssoc st.mem (storeKey k) _
  · intro vb ttlMs now1 now2 oc hlt hle
    unfold setKey
    rcases hm : oc.marshalErr with _ | e
    · rcases hs : oc.setErr with _ | e
      · simp only
        rw [umc_nonpos _ _ _ _ (sub_nonpos.mpr hle)]
      · simp only
    · simp only

/-- C3 witness: a non-positive derived ttl writes nothing and a positive
one stores the payload with that integer-second ttl. -/
theorem C3_local_ttl_witness :
    updateMemoryCache stMem "a" ⟨[1], 500⟩ 1000 = stMem ∧
    lookupAssoc (updateMemoryCache stMem "a" ⟨[2], 2000⟩ 0).mem (storeKey "a")
      = some ([2], 2) :=
  ⟨(C3_local_ttl stMem "a" ⟨[1], 500⟩ 1000 rfl).1 (by decide),
   (C3_local_ttl stMem "a" ⟨[2], 2000⟩ 0 rfl).2.1 (by decide)⟩

/-- C5 counterexample: enqueueing "a" inserts storeKey("a"), not "a"
itself; and when the pending set reaches the threshold with the
signalling channel already full, the send blocks (chBlocked) instead of
dropping the signal. -/
theorem C5_counterexample :
    "a" ∉ (broadcastKeyInvalidate stMem "a").invalidateKeys ∧
    (broadcastKeyInvalidate stFull "a").chBlocked = true ∧
    (broadcastKeyInvalidate stFull "a").chLen = stFull.chLen := by decide

/-- C5 (amended): enqueue inserts storeKey(s) under the mutex; a send on
the pressure channel happens exactly when the post-insert size equals
maxInvalidate (100), and that send is a plain blocking channel send on a
channel of capacity 100 — when the channel is full the sender blocks
rather than dropping the signal. -/
theorem C5_enqueue (st : ClientState) (s : String) :
    (broadcastKeyInvalidate st s).invalidateKeys
      = insertSet st.invalidateKeys (storeKey s) ∧
    ((insertSet st.invalidateKeys (storeKey s)).length ≠ maxInvalidate →
       (broadcastKeyInvalidate st s).chLen = st.chLen ∧
       (broadcastKeyInvalidate st s).chBlocked = st.chBlocked) ∧
    ((insertSet st.invalidateKeys (storeKey s)).length = maxInvalidate →
       (st.chLen < invalidateChSize →
          (broadcastKeyInvalidate st s).chLen = st.chLen + 1) ∧
       (invalidateChSize ≤ st.chLen →
          (broadcastKeyInvalidate st s).chLen = st.chLen ∧
          (broadcastKeyInvalidate st s).chBlocked = true)) := by
  refine ⟨broadcast_invalidateKeys st s, fun hne => ?_,
    fun heq => ⟨fun hlt => ?_, fun hge => ?_⟩⟩
  · unfold broadcastKeyInvalidate
    rw [if_neg hne]
    exact ⟨rfl, rfl⟩
  · unfold broadcastKeyInvalidate
    rw [if_pos heq, if_pos hlt]
  · unfold broadcastKeyInvalidate
    rw [if_pos heq, if_neg (by omega)]
    exact ⟨rfl, rfl⟩

/-- C5 witness: the amended enqueue behaviour evaluated on the empty
state — storeKey("a") lands in the pending set and, below the threshold,
no signal is sent. -/
theorem C5_enqueue_witness :
    (broadcastKeyInvalidate stMem "a").invalidateKeys = [storeKey "a"] ∧
    (broadcastKeyInvalidate stMem "a").chLen = 0 :=
  ⟨(C5_enqueue stMem "a").1, ((C5_enqueue stMem "a").2.1 (by decide)).1⟩

theorem tryRemoteHit_hit (key : String) (noStore : Bool) (nowMs : Int)
    (st : ClientState) (e : EncEnv)
    (hremote : lookupAssoc st.remote (storeKey key) = some (RemoteEntry.enc e)) :
    tryRemoteHit key noStore nowMs st =
      some
        (if noStore then { st with hitRedis := st.hitRedis + 1 }
         else updateMemoryCache { st with hitRedis := st.hitRedis + 1 } key
                (msgpackUnmarshalVE e) nowMs,
         Except.ok (msgpackUnmarshalVE e).ValueBytes) := by
  unfold tryRemoteHit
  rw [hremote]

theorem loop_hit (key : String) (ro : ReadOutcome) (noStore : Bool) (nowMs : Int)
    (steps : List LoopStep) (st : ClientState) (e : EncEnv)
    (hremote : lookupAssoc st.remote (storeKey key) = some (RemoteEntry.enc e)) :
    getWithTtlLoop key ro noStore nowMs steps st =
      (if noStore then { st with hitRedis := st.hitRedis + 1 }
       else updateMemoryCache { st with hitRedis := st.hitRedis + 1 } key
              (msgpackUnmarshalVE e) nowMs,
       some (Except.ok (msgpackUnmarshalVE e).ValueBytes)) := by
  cases steps with
  | nil => rw [loop_nil, tryRemoteHit_hit key noStore nowMs st e hremote]
  | cons s rest => rw [loop_cons, tryRemoteHit_hit key noStore nowMs st e hremote]

/-- C2: on a local miss with a decodable envelope in the remote store,
GetWithTtl increments the redis hit counter, backfills the local cache
unless noStore, and hands the envelope's payload bytes to the decode into
the target — but the redis latency histogram receives NO observation:
source line 455 builds the closure returned by recordLatency and never
invokes it, so latencyObs is unchanged, contradicting the spec's
"record redis latency". -/
theorem C2_remote_hit (st : ClientState) (key : String) (target : GoTarget)
    (ro : ReadOutcome) (noStore : Bool) (nowMs : Int) (steps : List LoopStep)
    (e : EncEnv)
    (hmiss : (if st.hasInMem then memGet st (storeKey key) else none) = none)
    (hremote : lookupAssoc st.remote (storeKey key) = some (RemoteEntry.enc e)) :
    (GetWithTtl st key target ro false noStore nowMs steps).1.hitRedis
      = st.hitRedis + 1 ∧
    (GetWithTtl st key target ro false noStore nowMs steps).1.latencyObs
      = st.latencyObs ∧
    (noStore = false →
       (GetWithTtl st key target ro false noStore nowMs steps).1
         = updateMemoryCache { st with hitRedis := st.hitRedis + 1 } key
             (msgpackUnmarshalVE e) nowMs) ∧
    (GetWithTtl st key target ro false noStore nowMs steps).2
      = some (unmarshal (msgpackUnmarshalVE e).ValueBytes target) := by
  cases noStore with
  | false =>
      have hG : GetWithTtl st key target ro false false nowMs steps
          = (updateMemoryCache { st with hitRedis := st.hitRedis + 1 } key
               (msgpackUnmarshalVE e) nowMs,
             some (unmarshal (msgpackUnmarshalVE e).ValueBytes target)) := by
        unfold GetWithTtl
        rw [if_neg (by simp), hmiss, loop_hit key ro false nowMs steps st e hremote]
        rfl
      rw [hG]
      refine ⟨?_, ?_, fun _ => rfl, rfl⟩
      · rw [umc_hitRedis]
      · rw [umc_latencyObs]
  | true =>
      have hG : GetWithTtl st key target ro false true nowMs steps
          = ({ st with hitRedis := st.hitRedis + 1 },
             some (unmarshal (msgpackUnmarshalVE e).ValueBytes target)) := by
        unfold GetWithTtl
        rw [if_neg (by simp), hmiss, loop_hit key ro true nowMs steps st e hremote]
        rfl
      rw [hG]
      exact ⟨rfl, rfl, fun h => Bool.noConfusion h, rfl⟩

/-- A state whose remote store holds an encoded envelope for key "a"
with payload [7] expiring at 5000 ms. -/
def stRemote : ClientState :=
  { st0 with remote := [(storeKey "a", RemoteEntry.enc (msgpackMarshalVE ⟨[7], 5000⟩))] }

/-- C2 witness: the remote-hit behaviour evaluated on a concrete state —
the redis hit counter becomes 1 while the latency histogram stays
empty. -/
theorem C2_remote_hit_witness :
    (GetWithTtl stRemote "a" GoTarget.tBytesPtr roNil false false 0 []).1.latencyObs
      = [] ∧
    (GetWithTtl stRemote "a" GoTarget.tBytesPtr roNil false false 0 []).1.hitRedis
      = 1 :=
  ⟨(C2_remote_hit stRemote "a" GoTarget.tBytesPtr roNil false 0 []
      (msgpackMarshalVE ⟨[7], 5000⟩) rfl (by decide)).2.1,
   (C2_remote_hit stRemote "a" GoTarget.tBytesPtr roNil false 0 []
      (msgpackMarshalVE ⟨[7], 5000⟩) rfl (by decide)).1⟩

/-- C4 counterexample: an execution of GetWithTtl with noStore = true on
empty caches still issues the write command SETNX lockKey("a") to the
remote store, contradicting the claim that no SET, SETNX or local cache
write is issued under noStore. -/
theorem C4_counterexample :
    WriteCmd.remoteSetNX (lockKey "a")
      ∈ (GetWithTtl st0 "a" GoTarget.tNil roNil false true 0
          [LoopStep.setNXAcquired]).1.log := by decide

/-- C4 (amended): with noStore = true, every write command GetWithTtl
issues is a SETNX on a lock key — the remote data SET and all local
cache writes are suppressed, though the distributed-lock SETNX may still
be issued on a remote miss; and with noCache = true the origin read
function is always invoked (exactly once in this sequential model). -/
theorem C4_flags (st : ClientState) (key : String) (target : GoTarget)
    (ro : ReadOutcome) (noCache noStore : Bool) (nowMs : Int)
    (steps : List LoopStep) :
    (noStore = true →
       ∀ w ∈ (GetWithTtl st key target ro noCache noStore nowMs steps).1.log,
         w ∈ st.log ∨ ∃ k2, w = WriteCmd.remoteSetNX k2) ∧
    (noCache = true →
       (GetWithTtl st key target ro noCache noStore nowMs steps).1.originCalls
         = st.originCalls + 1) := by
  constructor
  · intro hns w hw
    subst hns
    cases noCache with
    | true =>
        rcases hr : readValue st key ro true nowMs with ⟨st1, r⟩
        have hlog := readValue_log_noStore st key ro nowMs
        rw [hr] at hlog
        cases r with
        | error er =>
            have hG : GetWithTtl st key target ro true true nowMs steps
                = (st1, some (Except.error er)) := by
              unfold GetWithTtl; rw [if_pos rfl, hr]
            rw [hG] at hw
            rw [hlog] at hw
            left; exact hw
        | ok bs =>
            have hG : GetWithTtl st key target ro true true nowMs steps
                = (st1, some (unmarshal bs target)) := by
              unfold GetWithTtl; rw [if_pos rfl, hr]
            rw [hG] at hw
            rw [hlog] at hw
            left; exact hw
    | false =>
        rcases hm : (if st.hasInMem then memGet st (storeKey key) else none)
            with _ | tb
        · rcases hl : getWithTtlLoop key ro true nowMs steps st with ⟨st1, r⟩
          have hmem := loop_log_noStore key ro nowMs steps st w
          rw [hl] at hmem
          cases r with
          | none =>
              have hG : GetWithTtl st key target ro false true nowMs steps
                  = (st1, none) := by
                unfold GetWithTtl; rw [if_neg (by simp), hm, hl]
              rw [hG] at hw
              exact hmem hw
          | some rr =>
              cases rr with
              | error er =>
                  have hG : GetWithTtl st key target ro false true nowMs steps
                      = (st1, some (Except.error er)) := by
                    unfold GetWithTtl; rw [if_neg (by simp), hm, hl]
                  rw [hG] at hw
                  exact hmem hw
              | ok bs =>
                  have hG : GetWithTtl st key target ro false true nowMs steps
                      = (st1, some (unmarshal bs target)) := by
                    unfold GetWithTtl; rw [if_neg (by simp), hm, hl]
                  rw [hG] at hw
                  exact hmem hw
        · have hG : GetWithTtl st key target ro false true nowMs steps
              = ({ st with hitMem := st.hitMem + 1 }, some (unmarshal tb target)) := by
            unfold GetWithTtl; rw [if_neg (by simp), hm]
          rw [hG] at hw
          left; exact hw
  · intro hnc
    subst hnc
    rcases hr : readValue st key ro noStore nowMs with ⟨st1, r⟩
    have ho := readValue_originCalls st key ro noStore nowMs
    rw [hr] at ho
    cases r with
    | error er =>
        have hG : GetWithTtl st key target ro true noStore nowMs steps
            = (st1, some (Except.error er)) := by
          unfold GetWithTtl; rw [if_pos rfl, hr]
        rw [hG]
        exact ho
    | ok bs =>
        have hG : GetWithTtl st key target ro true noStore nowMs steps
            = (st1, some (unmarshal bs target)) := by
          unfold GetWithTtl; rw [if_pos rfl, hr]
        rw [hG]
        exact ho

/-- C4 witness: the amended flag behaviour on concrete inputs — a
noCache call on the empty state invokes the origin exactly once, and a
noStore call leaves the log free of data writes. -/
theorem C4_flags_witness :
    (GetWithTtl st0 "a" GoTarget.tNil roNil true true 0 []).1.originCalls = 1 :=
  (C4_flags st0 "a" GoTarget.tNil roNil true true 0 []).2 rfl

end Dcache
